import Mathlib

/-!
Shallow embedding of the coordination layer of `pi_stream.py`:
rate limiting, the Pelco-D actuator framing, the frame hand-off slot,
the detection-hysteresis recording state machine, PTZ zone arbitration,
command authorization, and recording finalization.

Time is modelled as `ℚ` (wall-clock seconds), machine bytes as `Nat`
with explicit `% 256`, and the module-level mutable globals of the
script as fields of an explicit state record threaded through the
handlers and worker-loop step functions.
-/

namespace PiStream

/-- `recording_cooldown = 5.0`: seconds to continue recording after the
object disappears. -/
def recording_cooldown : ℚ := 5

/-- `record_min_duration = 3.0`: minimum recording duration in seconds. -/
def record_min_duration : ℚ := 3

/-- `RECORD_CONFIDENCE_THRESHOLD = 0.65` in `inference_thread`. -/
def RECORD_CONFIDENCE_THRESHOLD : ℚ := 65 / 100

/-- `required_consecutive_frames = 3` in `inference_thread`. -/
def required_consecutive_frames : Nat := 3

/-- An outbound `recording_status` transport notification
(`sio.emit('recording_status', ...)`): the recording flag and whether
the transition was manual. -/
structure RecStatus where
  recording : Bool
  manual : Bool
deriving DecidableEq

/-- The dict stored in `ptz_manual_control` / `manual_recording_control`:
`clientId` and the timestamp of the transition. -/
structure ManualControl where
  clientId : String
  timestamp : ℚ
deriving DecidableEq

/-- A file in the recordings directory: its name and creation time
(`os.path.getctime`). -/
structure DirFile where
  name : String
  ctime : ℚ
deriving DecidableEq

/-- The module-level mutable globals of `pi_stream.py` that the claims
touch, gathered into one record. -/
structure SysState where
  automatic_mode : Bool
  ptz_manual_control : Option ManualControl
  manual_recording_control : Option ManualControl
  recording : Bool
  record_start_time : Option ℚ
  last_detection_time : ℚ
  high_confidence_frames : Nat
  video_writer_open : Bool
  upload_queue : List String
deriving DecidableEq

/-- `RateLimiter`: `max_rate` and `last_send_time` (initialized to 0). -/
structure RateLimiter where
  max_rate : ℚ
  last_send_time : ℚ
deriving DecidableEq

/-- `RateLimiter.can_send`, at an explicit current time: if
`current_time - last_send_time >= 1.0 / max_rate` record `current_time`
as `last_send_time` and return `True`, else return `False` with no
state change. -/
def RateLimiter.can_send (rl : RateLimiter) (current_time : ℚ) :
    Bool × RateLimiter :=
  if 1 / rl.max_rate ≤ current_time - rl.last_send_time then
    (true, { rl with last_send_time := current_time })
  else
    (false, rl)

/-- Run one `RateLimiter` over a sequence of call times, collecting the
times at which `can_send` admitted the call. -/
def runLimiter : RateLimiter → List ℚ → List ℚ
  | _, [] => []
  | rl, t :: ts =>
    if (rl.can_send t).1 then t :: runLimiter (rl.can_send t).2 ts
    else runLimiter (rl.can_send t).2 ts

/-- `PelcoD.calculate_checksum`: `(address + sum(command)) % 256`. -/
def calculate_checksum (address : Nat) (command : List Nat) : Nat :=
  (address + command.sum) % 256

/-- The 7-byte message `PelcoD.send_command` writes to the serial port:
`[0xFF, address] + command + [checksum]`. -/
def send_command_msg (address : Nat) (command : List Nat) : List Nat :=
  [0xFF, address] ++ command ++ [calculate_checksum address command]

/-- The capture thread's publish into the `processing_frame` hand-off
slot (`capture_frames_thread`): the slot is written only when it is
empty (`if processing_frame is None: processing_frame = frame.copy()`);
otherwise the new frame is dropped and the slot keeps its value. -/
def publish_processing_frame {α : Type} (slot : Option α) (frame : α) :
    Option α :=
  match slot with
  | none => some frame
  | some old => some old

/-- The inference thread's take from the `processing_frame` slot
(`inference_thread`): return the current value (or `none` when empty)
and leave the slot empty (`processing_frame = None`). -/
def take_processing_frame {α : Type} (slot : Option α) :
    Option α × Option α :=
  (slot, none)

/-- A detection box as `control_ptz_by_object_position` reads it:
confidence `conf[0]`, class id `cls[0]`, corners `xyxy[0]`. -/
structure Box where
  conf : ℚ
  cls : Nat
  x1 : ℚ
  y1 : ℚ
  x2 : ℚ
  y2 : ℚ
deriving DecidableEq

/-- A primitive actuator call issued through the `PelcoD` controller. -/
inductive PtzAction where
  | panLeft
  | panRight
  | tiltUp
  | tiltDown
  | stopAction
deriving DecidableEq

/-- The best-box scan of `control_ptz_by_object_position`: starting from
`best_box = None`, `best_confidence = confidence_threshold`, each box
with `conf >= best_confidence` and `cls == 0` (person) becomes the new
best and raises the bar to its confidence. -/
def select_best_step (p : Option Box × ℚ) (box : Box) :
    Option Box × ℚ :=
  if p.2 ≤ box.conf ∧ box.cls = 0 then (some box, box.conf) else p

/-- The scan itself: fold `select_best_step` over the boxes and return
the selected box, if any. -/
def select_best_box (boxes : List Box) (confidence_threshold : ℚ) :
    Option Box :=
  (boxes.foldl select_best_step
    ((none : Option Box), confidence_threshold)).1

/-- The zone classification and resulting actuator pulse sequence of
`control_ptz_by_object_position`, for a frame of width `w`, height `h`
and an object center `(cx, cy)`: boundaries at `w/3`, `w*2/3`, `h/3`,
`h*2/3`; corner zones give pan-stop-tilt-stop, edge zones a single
pulse and stop, the center zone nothing. -/
def zone_commands (w h cx cy : ℚ) : List PtzAction :=
  if cx < w / 3 then
    if cy < h / 3 then
      [.panLeft, .stopAction, .tiltUp, .stopAction]
    else if h * 2 / 3 < cy then
      [.panLeft, .stopAction, .tiltDown, .stopAction]
    else
      [.panLeft, .stopAction]
  else if w * 2 / 3 < cx then
    if cy < h / 3 then
      [.panRight, .stopAction, .tiltUp, .stopAction]
    else if h * 2 / 3 < cy then
      [.panRight, .stopAction, .tiltDown, .stopAction]
    else
      [.panRight, .stopAction]
  else
    if cy < h / 3 then
      [.tiltUp, .stopAction]
    else if h * 2 / 3 < cy then
      [.tiltDown, .stopAction]
    else
      []

/-- `control_ptz_by_object_position`, past its `ptz_enabled` and
rate-limit gates (modelled by the callers): select the best box; if none
do not move, else pulse according to the zone of the box center
`((x1+x2)/2, (y1+y2)/2)`.  Returns the actuator calls issued. -/
def control_ptz_by_object_position (w h : ℚ) (boxes : List Box)
    (confidence_threshold : ℚ) : List PtzAction :=
  match select_best_box boxes confidence_threshold with
  | none => []
  | some b =>
    zone_commands w h ((b.x1 + b.x2) / 2) ((b.y1 + b.y2) / 2)

/-- The direction dispatch of the `ptz_command` handler: the actuator
pulse sequence produced for each direction string; unknown directions
produce nothing. -/
def ptz_direction_actions (direction : String) : List PtzAction :=
  if direction = "up" then [.tiltUp, .stopAction]
  else if direction = "down" then [.tiltDown, .stopAction]
  else if direction = "left" then [.panLeft, .stopAction]
  else if direction = "right" then [.panRight, .stopAction]
  else if direction = "up-left" then
    [.panLeft, .stopAction, .tiltUp, .stopAction]
  else if direction = "up-right" then
    [.panRight, .stopAction, .tiltUp, .stopAction]
  else if direction = "down-left" then
    [.panLeft, .stopAction, .tiltDown, .stopAction]
  else if direction = "down-right" then
    [.panRight, .stopAction, .tiltDown, .stopAction]
  else if direction = "stop" then [.stopAction]
  else []

/-- The `ptz_command` socket handler: if PTZ is not enabled, nothing; if
`ptz_manual_control` is set and the command's `clientId` differs from
the owner's, the command is dropped; otherwise (owner matches, or no
owner is set) the direction is executed on the actuator.  The handler
mutates no module state; its effect is the list of actuator calls. -/
def ptz_command (s : SysState) (ptz_enabled : Bool)
    (clientId direction : String) : List PtzAction :=
  if ptz_enabled = false then []
  else
    match s.ptz_manual_control with
    | some mc =>
      if clientId ≠ mc.clientId then [] else ptz_direction_actions direction
    | none => ptz_direction_actions direction

/-- Python's `str.startswith`, on the underlying character lists. -/
def startswith (s p : String) : Bool :=
  p.data.isPrefixOf s.data

/-- The file that `stop_recording` finalizes: among directory entries
whose name starts with `detection_`, the one with the greatest creation
time (`sort(key=getctime, reverse=True)` then `[0]`; Python's stable
sort keeps the first-listed entry among ties, hence replacement only on
strictly greater ctime). -/
def newer_file (acc : Option DirFile) (f : DirFile) : Option DirFile :=
  match acc with
  | none => some f
  | some g => if g.ctime < f.ctime then some f else some g

/-- The scan itself: fold `newer_file` over the matching entries. -/
def newest_detection_file (dir : List DirFile) : Option DirFile :=
  (dir.filter (fun f => startswith f.name "detection_")).foldl
    newer_file none

/-- `stop_recording`: if a video writer is open, pick the newest
`detection_` file in the recordings directory (falling back to a fresh
timestamped name when none exists), release the writer, clear the
`recording` flag and `record_start_time`, and enqueue the picked path
for upload.  With no open writer it does nothing. -/
def stop_recording (s : SysState) (dir : List DirFile)
    (fallback : String) : SysState :=
  if s.video_writer_open then
    let video_path :=
      match newest_detection_file dir with
      | some f => f.name
      | none => fallback
    { s with
      video_writer_open := false
      recording := false
      record_start_time := none
      upload_queue := s.upload_queue ++ [video_path] }
  else s

/-- The body of the `recording_command` handler after its authorization
check.  Note on the start branch: the handler declares
`global recording, manual_recording_control` only, so its assignment
`record_start_time = time.time()` binds a function-local name and the
module-level `record_start_time` is unchanged; the embedding therefore
sets only `recording`.  The handler emits no `recording_status`
notification on either branch. -/
def recording_command_body (s : SysState) (action : String)
    (dir : List DirFile) (fallback : String) : SysState × List RecStatus :=
  if action = "start" ∧ s.recording = false then
    ({ s with recording := true }, [])
  else if action = "stop" ∧ s.recording = true then
    (stop_recording s dir fallback, [])
  else (s, [])

/-- The `recording_command` socket handler: if
`manual_recording_control` is set and the command's `clientId` differs
from the owner's, the command is dropped with no state change;
otherwise (owner matches, or no owner is set) the start/stop action is
applied. -/
def recording_command (s : SysState) (clientId action : String)
    (dir : List DirFile) (fallback : String) : SysState × List RecStatus :=
  match s.manual_recording_control with
  | some mc =>
    if clientId ≠ mc.clientId then (s, [])
    else recording_command_body s action dir fallback
  | none => recording_command_body s action dir fallback

/-- The `manual_mode_command` socket handler: enabling sets
`automatic_mode := False` and both manual-control dicts to this client;
disabling restores automatic mode and clears both. -/
def manual_mode_command (s : SysState) (clientId : String)
    (enabled : Bool) (now : ℚ) : SysState :=
  if enabled then
    { s with
      automatic_mode := false
      ptz_manual_control := some ⟨clientId, now⟩
      manual_recording_control := some ⟨clientId, now⟩ }
  else
    { s with
      automatic_mode := true
      ptz_manual_control := none
      manual_recording_control := none }

/-- One inference cycle of `inference_thread` on a frame with
`high_conf_detections` detections at or above
`RECORD_CONFIDENCE_THRESHOLD`, at wall-clock `now`, restricted to its
recording decision (the PTZ tracking block is modelled separately by
`control_ptz_by_object_position`).  Only acts in automatic mode: a
qualifying frame increments `high_confidence_frames` and refreshes
`last_detection_time`; once the counter reaches
`required_consecutive_frames` and recording is off, recording starts,
`record_start_time` is set, and a `recording_status` notification
(recording, not manual) is emitted.  A frame with no qualifying
detection resets the counter to zero. -/
def infer_frame_step (s : SysState) (high_conf_detections : Nat)
    (now : ℚ) : SysState × List RecStatus :=
  if s.automatic_mode then
    if 0 < high_conf_detections then
      if required_consecutive_frames ≤ s.high_confidence_frames + 1 then
        if s.recording = false then
          ({ s with
              high_confidence_frames := s.high_confidence_frames + 1
              last_detection_time := now
              recording := true
              record_start_time := some now },
           [⟨true, false⟩])
        else
          ({ s with
              high_confidence_frames := s.high_confidence_frames + 1
              last_detection_time := now }, [])
      else
        ({ s with
            high_confidence_frames := s.high_confidence_frames + 1
            last_detection_time := now }, [])
    else ({ s with high_confidence_frames := 0 }, [])
  else (s, [])

/-- The stop check of `recording_manager_thread`: if
`now - last_detection_time > recording_cooldown` and
`now - record_start_time > record_min_duration`, call `stop_recording`
and emit a `recording_status` notification (not recording, not
manual). -/
def recording_manager_stop_check (s : SysState) (start now : ℚ)
    (dir : List DirFile) (fallback : String) : SysState × List RecStatus :=
  if recording_cooldown < now - s.last_detection_time ∧
      record_min_duration < now - start then
    (stop_recording s dir fallback, [⟨false, false⟩])
  else (s, [])

/-- One iteration of `recording_manager_thread` at wall-clock `now`,
split into the safety re-initialization of a missing
`record_start_time` (which the code sets to the current time before
checking) and the stop check above. -/
def recording_manager_tick (s : SysState) (now : ℚ)
    (dir : List DirFile) (fallback : String) : SysState × List RecStatus :=
  if s.automatic_mode then
    if s.recording then
      match s.record_start_time with
      | some start => recording_manager_stop_check s start now dir fallback
      | none =>
          recording_manager_stop_check
            { s with record_start_time := some now } now now dir fallback
    else (s, [])
  else (s, [])

/-- Run the recording decision of the inference loop over a list of
frames, each given as (number of qualifying detections, wall-clock
time). -/
def run_frames (s : SysState) : List (Nat × ℚ) → SysState
  | [] => s
  | (n, t) :: rest => run_frames (infer_frame_step s n t).1 rest

/-- Whether every frame of a sequence has at least one qualifying
detection. -/
def all_qualifying : List (Nat × ℚ) → Bool
  | [] => true
  | (n, _) :: rest => if 0 < n then all_qualifying rest else false

/-- The length of the trailing run of qualifying frames (frames with at
least one qualifying detection) in a frame sequence. -/
def trailing_qualifying : List (Nat × ℚ) → Nat
  | [] => 0
  | (n, _) :: rest =>
    if 0 < n ∧ all_qualifying rest = true then rest.length + 1
    else trailing_qualifying rest

/-! ## Rate limiter lemmas -/

theorem can_send_max_rate (rl : RateLimiter) (t : ℚ) :
    (rl.can_send t).2.max_rate = rl.max_rate := by
  unfold RateLimiter.can_send
  split <;> rfl

theorem can_send_not_admitted (rl : RateLimiter) (t : ℚ)
    (h : (rl.can_send t).1 = false) : (rl.can_send t).2 = rl := by
  unfold RateLimiter.can_send at h ⊢
  by_cases hcond : 1 / rl.max_rate ≤ t - rl.last_send_time
  · rw [if_pos hcond] at h
    exact absurd h (by simp)
  · rw [if_neg hcond]

theorem runLimiter_cons_pos (rl : RateLimiter) (t : ℚ) (ts : List ℚ)
    (h : 1 / rl.max_rate ≤ t - rl.last_send_time) :
    runLimiter rl (t :: ts) =
      t :: runLimiter ⟨rl.max_rate, t⟩ ts := by
  simp only [runLimiter, RateLimiter.can_send]
  rw [if_pos h]
  simp

theorem runLimiter_cons_neg (rl : RateLimiter) (t : ℚ) (ts : List ℚ)
    (h : ¬ 1 / rl.max_rate ≤ t - rl.last_send_time) :
    runLimiter rl (t :: ts) = runLimiter rl ts := by
  simp only [runLimiter, RateLimiter.can_send]
  rw [if_neg h]
  simp

theorem runLimiter_head_ge (ts : List ℚ) : ∀ rl : RateLimiter,
    ∀ x, (runLimiter rl ts).head? = some x →
      1 / rl.max_rate ≤ x - rl.last_send_time := by
  induction ts with
  | nil => intro rl x hx; simp [runLimiter] at hx
  | cons t ts ih =>
    intro rl x hx
    by_cases hcond : 1 / rl.max_rate ≤ t - rl.last_send_time
    · rw [runLimiter_cons_pos rl t ts hcond] at hx
      simp at hx
      rw [← hx]
      exact hcond
    · rw [runLimiter_cons_neg rl t ts hcond] at hx
      exact ih rl x hx

theorem runLimiter_chain (ts : List ℚ) : ∀ rl : RateLimiter,
    List.Chain' (fun a b => 1 / rl.max_rate ≤ b - a) (runLimiter rl ts) := by
  induction ts with
  | nil => intro rl; simp [runLimiter]
  | cons t ts ih =>
    intro rl
    by_cases hcond : 1 / rl.max_rate ≤ t - rl.last_send_time
    · rw [runLimiter_cons_pos rl t ts hcond]
      refine List.chain'_cons'.mpr ⟨?_, ih _⟩
      intro y hy
      exact runLimiter_head_ge ts _ y hy
    · rw [runLimiter_cons_neg rl t ts hcond]
      exact ih rl

/-! ## Claim theorems -/

/-- C8: for every address byte and 4-byte command body, the emitted
7-byte Pelco-D frame is `[0xFF, address, cmd1, cmd2, data1, data2,
checksum]` with `checksum = (address + cmd1 + cmd2 + data1 + data2) mod
256`; command bytes `[0x00, 0x04, 0xFF, 0x00]` with address `0x01`
yield checksum `0x04`. -/
theorem c8_pelco_checksum (address c1 c2 d1 d2 : Nat) :
    send_command_msg address [c1, c2, d1, d2] =
      [0xFF, address, c1, c2, d1, d2,
        (address + c1 + c2 + d1 + d2) % 256] ∧
    calculate_checksum 0x01 [0x00, 0x04, 0xFF, 0x00] = 0x04 := by
  refine ⟨?_, by decide⟩
  simp only [send_command_msg, calculate_checksum, List.sum_cons,
    List.sum_nil, List.cons_append, List.nil_append, List.cons.injEq,
    and_true, true_and]
  omega

/-- C2 counterexample: publishing into the `processing_frame` hand-off
slot while an unconsumed frame (here `1`) is present does not leave the
newly published frame (here `2`) in the slot. -/
theorem c2_counterexample :
    ¬ (publish_processing_frame (some 1) 2 = some 2) := by decide

/-- C2 amended: the `processing_frame` hand-off slot is drop-newest,
not drop-oldest: publishing writes the new frame only when the slot is
empty; when an unconsumed frame is present the publish is skipped and
the slot keeps the old frame.  The consumer's take removes and returns
the current value (or signals empty), so a publish after a take always
lands. -/
theorem c2_amended_slot {α : Type} (old new : α) (slot : Option α) :
    publish_processing_frame (none : Option α) new = some new ∧
    publish_processing_frame (some old) new = some old ∧
    take_processing_frame slot = (slot, none) ∧
    publish_processing_frame (take_processing_frame slot).2 new =
      some new :=
  ⟨rfl, rfl, rfl, rfl⟩

/-- C7: `can_send` returns true and records the call time as
`last_send_time` iff at least `1/max_rate` elapsed since the last
admitted call, and otherwise leaves the state unchanged; hence over any
sequence of calls, consecutive admitted times are at least `1/max_rate`
apart, and (for a positive rate) so are any two admitted times. -/
theorem c7_rate_limiter (rl : RateLimiter) (t : ℚ) (ts : List ℚ) :
    ((rl.can_send t).1 = true ↔
      1 / rl.max_rate ≤ t - rl.last_send_time) ∧
    (rl.can_send t).2.last_send_time =
      (if (rl.can_send t).1 = true then t else rl.last_send_time) ∧
    (rl.can_send t).2.max_rate = rl.max_rate ∧
    List.Chain' (fun a b => 1 / rl.max_rate ≤ b - a) (runLimiter rl ts) ∧
    (0 < rl.max_rate →
      List.Pairwise (fun a b => 1 / rl.max_rate ≤ b - a)
        (runLimiter rl ts)) := by
  refine ⟨?_, ?_, can_send_max_rate rl t, runLimiter_chain ts rl, ?_⟩
  · unfold RateLimiter.can_send
    split <;> simp_all
  · unfold RateLimiter.can_send
    split <;> simp_all
  · intro hpos
    haveI : IsTrans ℚ (fun a b => 1 / rl.max_rate ≤ b - a) := by
      constructor
      intro a b c hab hbc
      have h1 : 0 < 1 / rl.max_rate := by positivity
      simp only at hab hbc ⊢
      linarith
    exact List.chain'_iff_pairwise.mp (runLimiter_chain ts rl)

/-- C7 witness: at `max_rate = 2`, `last_send_time = 0`, a call at
`t = 1` is admitted and records 1; over call times `[1, 5/4, 3/2]` the
admitted times `[1, 3/2]` are pairwise at least `1/2` apart. -/
theorem c7_rate_limiter_witness :
    ((RateLimiter.mk 2 0).can_send 1).1 = true ∧
    ((RateLimiter.mk 2 0).can_send 1).2.last_send_time = 1 ∧
    List.Pairwise (fun a b => 1 / (RateLimiter.mk 2 0).max_rate ≤ b - a)
      (runLimiter ⟨2, 0⟩ [1, 5/4, 3/2]) := by
  have h := c7_rate_limiter ⟨2, 0⟩ 1 [1, 5/4, 3/2]
  have h1 : ((RateLimiter.mk 2 0).can_send 1).1 = true := by
    exact h.1.mpr (by norm_num)
  refine ⟨h1, ?_, h.2.2.2.2 (by norm_num)⟩
  rw [h.2.1, if_pos h1]

/-- C1 counterexample: with no manual owner set (automatic mode), an
inbound recording start command from an arbitrary client is applied
(the recording flag changes), and an inbound PTZ command from an
arbitrary client drives the actuator — contradicting "applied only if
control mode is Manual and the clientId equals the current manual
owner; any command failing this check is dropped with no state change
and no actuator or recorder effect". -/
theorem c1_counterexample :
    (recording_command ⟨true, none, none, false, none, 0, 0, false, []⟩
        "anyone" "start" [] "fb").1.recording = true ∧
    (⟨true, none, none, false, none, 0, 0, false, []⟩ :
        SysState).recording = false ∧
    ptz_command ⟨true, none, none, false, none, 0, 0, false, []⟩ true
        "anyone" "left" = [.panLeft, .stopAction] := by
  refine ⟨by decide, by decide, by decide⟩

/-- C1 amended: an inbound PTZ or recording command is dropped (no
state change, no actuator effect) iff a manual owner is set and the
command's clientId differs from the owner's (or, for PTZ commands, PTZ
is disabled); when no manual owner is set — in particular while mode is
Automatic — and when the owner matches, the command is applied. -/
theorem c1_amended_authorization (s : SysState) (pe : Bool)
    (cid direction action fb : String) (dir : List DirFile)
    (mc : ManualControl) :
    (s.manual_recording_control = some mc → cid ≠ mc.clientId →
      recording_command s cid action dir fb = (s, [])) ∧
    (s.ptz_manual_control = some mc → cid ≠ mc.clientId →
      ptz_command s pe cid direction = []) ∧
    (s.manual_recording_control = none →
      recording_command s cid action dir fb =
        recording_command_body s action dir fb) ∧
    (s.manual_recording_control = some mc → cid = mc.clientId →
      recording_command s cid action dir fb =
        recording_command_body s action dir fb) ∧
    (s.ptz_manual_control = none → pe = true →
      ptz_command s pe cid direction = ptz_direction_actions direction) := by
  refine ⟨?_, ?_, ?_, ?_, ?_⟩
  · intro hmc hne
    simp [recording_command, hmc, hne]
  · intro hmc hne
    cases pe <;> simp [ptz_command, hmc, hne]
  · intro hmc
    simp [recording_command, hmc]
  · intro hmc heq
    simp [recording_command, hmc, heq]
  · intro hmc hpe
    simp [ptz_command, hmc, hpe]

/-- C1 witness: a recording command from client "evil" while "op" holds
manual control is dropped with no state change, and likewise a PTZ
command; a start command with no owner set is applied. -/
theorem c1_amended_authorization_witness :
    recording_command
        ⟨false, some ⟨"op", 0⟩, some ⟨"op", 0⟩, false, none, 0, 0,
          false, []⟩ "evil" "start" [] "fb" =
      (⟨false, some ⟨"op", 0⟩, some ⟨"op", 0⟩, false, none, 0, 0,
          false, []⟩, []) ∧
    ptz_command
        ⟨false, some ⟨"op", 0⟩, some ⟨"op", 0⟩, false, none, 0, 0,
          false, []⟩ true "evil" "left" = [] ∧
    (recording_command ⟨true, none, none, false, none, 0, 0, false, []⟩
        "evil" "start" [] "fb").1.recording = true := by
  have h1 := c1_amended_authorization
    ⟨false, some ⟨"op", 0⟩, some ⟨"op", 0⟩, false, none, 0, 0,
      false, []⟩ true "evil" "left" "start" "fb" [] ⟨"op", 0⟩
  have h2 := c1_amended_authorization
    ⟨true, none, none, false, none, 0, 0, false, []⟩ true "evil" "left"
      "start" "fb" [] ⟨"op", 0⟩
  refine ⟨h1.1 rfl (by decide), h1.2.1 rfl (by decide), ?_⟩
  rw [h2.2.2.1 rfl]
  decide

/-- C5 counterexample: an authorized manual recording start command
(owner "op" issuing "start") flips the recording flag from false to
true but emits no recording-status notification at all — contradicting
"on every transition ... whether triggered by the automatic hysteresis
path or by an authorized manual command ... a recording-status
notification ... is emitted". -/
theorem c5_counterexample :
    (recording_command
        ⟨false, some ⟨"op", 0⟩, some ⟨"op", 0⟩, false, none, 0, 0,
          false, []⟩ "op" "start" [] "fb").1.recording = true ∧
    (⟨false, some ⟨"op", 0⟩, some ⟨"op", 0⟩, false, none, 0, 0,
        false, []⟩ : SysState).recording = false ∧
    (recording_command
        ⟨false, some ⟨"op", 0⟩, some ⟨"op", 0⟩, false, none, 0, 0,
          false, []⟩ "op" "start" [] "fb").2 = [] := by
  refine ⟨by decide, by decide, by decide⟩

/-- C5 amended: only the automatic-path transitions emit a
recording-status notification, always with the manual flag false: the
inference loop emits (recording=true, manual=false) exactly when its
hysteresis start fires, and the recording-manager loop emits
(recording=false, manual=false) whenever its stop branch runs (in
particular on every automatic recording-to-not-recording transition);
the manual `recording_command` path emits no notification on either
transition. -/
theorem c5_amended_notifications (s : SysState) (n : Nat) (now : ℚ)
    (cid action fb : String) (dir : List DirFile) :
    (s.recording = false → (infer_frame_step s n now).1.recording = true →
      (infer_frame_step s n now).2 = [⟨true, false⟩]) ∧
    ((infer_frame_step s n now).2 ≠ [] →
      s.recording = false ∧ (infer_frame_step s n now).1.recording = true) ∧
    (s.recording = true →
      (recording_manager_tick s now dir fb).1.recording = false →
      (recording_manager_tick s now dir fb).2 = [⟨false, false⟩]) ∧
    (recording_command s cid action dir fb).2 = [] := by
  refine ⟨?_, ?_, ?_, ?_⟩
  · intro h0
    unfold infer_frame_step
    split_ifs <;> simp_all
  · unfold infer_frame_step
    split_ifs <;> simp_all
  · intro h0 h1
    unfold recording_manager_tick at h1 ⊢
    cases hauto : s.automatic_mode
    · simp_all
    · rw [h0] at h1 ⊢
      simp only [hauto] at h1 ⊢
      cases hst : s.record_start_time <;>
        simp only [hst, recording_manager_stop_check,
          stop_recording] at h1 ⊢ <;>
        split_ifs at h1 ⊢ <;> simp_all
  · unfold recording_command recording_command_body stop_recording
    split <;> split_ifs <;> simp

/-- C5 witness: the automatic hysteresis start (third qualifying frame
with the counter at 2, not recording) emits exactly the
(recording=true, manual=false) notification. -/
theorem c5_amended_notifications_witness :
    (infer_frame_step ⟨true, none, none, false, none, 0, 2, false, []⟩
      1 7).2 = [⟨true, false⟩] := by
  have h := c5_amended_notifications
    ⟨true, none, none, false, none, 0, 2, false, []⟩ 1 7 "c" "start"
    "fb" []
  exact h.1 rfl (by decide)

/-- C10: an authorized manual recording start command sets the global
`recording` flag and nothing else: because `record_start_time` is
absent from the handler's `global` declaration, its assignment in the
start branch binds a local name, so the module-level
`record_start_time` — and every other global except `recording` — is
unchanged. -/
theorem c10_manual_start_frame (s : SysState) (cid fb : String)
    (dir : List DirFile)
    (hauth : ∀ mc, s.manual_recording_control = some mc →
      cid = mc.clientId)
    (hrec : s.recording = false) :
    (recording_command s cid "start" dir fb).1 =
      { s with recording := true } ∧
    (recording_command s cid "start" dir fb).1.record_start_time =
      s.record_start_time ∧
    (recording_command s cid "start" dir fb).1.recording = true ∧
    (recording_command s cid "start" dir fb).2 = [] := by
  have hbody : recording_command s cid "start" dir fb =
      recording_command_body s "start" dir fb := by
    unfold recording_command
    cases hc : s.manual_recording_control with
    | none => rfl
    | some mc => simp [hauth mc hc]
  rw [hbody]
  unfold recording_command_body
  rw [if_pos ⟨rfl, hrec⟩]
  simp

/-- C10 witness: a manual start by the owning client "op" from an idle
state with `record_start_time = none` leaves it `none` while setting
the recording flag. -/
theorem c10_manual_start_frame_witness :
    (recording_command
        ⟨false, some ⟨"op", 0⟩, some ⟨"op", 0⟩, false, none, 0, 0,
          false, []⟩ "op" "start" [] "fb").1.record_start_time = none ∧
    (recording_command
        ⟨false, some ⟨"op", 0⟩, some ⟨"op", 0⟩, false, none, 0, 0,
          false, []⟩ "op" "start" [] "fb").1.recording = true := by
  have h := c10_manual_start_frame
    ⟨false, some ⟨"op", 0⟩, some ⟨"op", 0⟩, false, none, 0, 0,
      false, []⟩ "op" "fb" []
    (by intro mc hmc; cases hmc; rfl) rfl
  exact ⟨h.2.1, h.2.2.1⟩

/-- C4: in automatic mode while recording, the manager loop closes the
session iff both the cooldown and the minimum duration have elapsed:
it stops (emitting the stop notification) iff
`now - last_detection_time > 5` and `now - record_start_time > 3`;
with the recording started at 0 and no detection after 0, the session
is still open at every `now ≤ 5` (in particular at `now = 3`) and is
closed at every `now > 5`. -/
theorem c4_cooldown_and_min_duration (s : SysState) (now start : ℚ)
    (dir : List DirFile) (fb : String)
    (hauto : s.automatic_mode = true) (hrec : s.recording = true)
    (hstart : s.record_start_time = some start) :
    ((recording_manager_tick s now dir fb).2 = [⟨false, false⟩] ↔
      recording_cooldown < now - s.last_detection_time ∧
      record_min_duration < now - start) ∧
    (s.last_detection_time = 0 → start = 0 →
      (now ≤ 5 → (recording_manager_tick s now dir fb).2 = [] ∧
        (recording_manager_tick s now dir fb).1.recording = true) ∧
      (5 < now → (recording_manager_tick s now dir fb).2 =
        [⟨false, false⟩])) := by
  have hred : recording_manager_tick s now dir fb =
      recording_manager_stop_check s start now dir fb := by
    unfold recording_manager_tick
    rw [hauto, hrec, hstart]
    rfl
  constructor
  · rw [hred]
    unfold recording_manager_stop_check
    split_ifs with hcond
    · exact iff_of_true rfl hcond
    · exact iff_of_false (by simp) hcond
  · intro hlast h0
    subst h0
    constructor
    · intro hle
      rw [hred]
      unfold recording_manager_stop_check
      rw [if_neg ?side]
      case side =>
        rw [hlast]
        unfold recording_cooldown
        intro hc
        linarith [hc.1]
      exact ⟨rfl, hrec⟩
    · intro hgt
      rw [hred]
      unfold recording_manager_stop_check
      rw [if_pos ?side]
      case side =>
        rw [hlast]
        unfold recording_cooldown record_min_duration
        exact ⟨by linarith, by linarith⟩

/-- C4 witness: recording started at 0, last detection at 0: at
`now = 3` the session is still open (no stop notification, flag still
true); at `now = 6` it is closed. -/
theorem c4_cooldown_and_min_duration_witness :
    (recording_manager_tick ⟨true, none, none, true, some 0, 0, 3,
      true, []⟩ 3 [] "fb").2 = [] ∧
    (recording_manager_tick ⟨true, none, none, true, some 0, 0, 3,
      true, []⟩ 3 [] "fb").1.recording = true ∧
    (recording_manager_tick ⟨true, none, none, true, some 0, 0, 3,
      true, []⟩ 6 [] "fb").2 = [⟨false, false⟩] := by
  have h3 := c4_cooldown_and_min_duration
    ⟨true, none, none, true, some 0, 0, 3, true, []⟩ 3 0 [] "fb"
    rfl rfl rfl
  have h6 := c4_cooldown_and_min_duration
    ⟨true, none, none, true, some 0, 0, 3, true, []⟩ 6 0 [] "fb"
    rfl rfl rfl
  obtain ⟨ha, hb⟩ := (h3.2 rfl rfl).1 (by norm_num)
  exact ⟨ha, hb, (h6.2 rfl rfl).2 (by norm_num)⟩

/-! ## PTZ zone arbitration lemmas -/

theorem select_fold_spec (threshold : ℚ) (l : List Box) :
    ∀ (o : Option Box) (bar : ℚ),
      threshold ≤ bar →
      (o = none → bar = threshold) →
      (∀ b, o = some b → b.cls = 0 ∧ b.conf = bar) →
      bar ≤ (l.foldl select_best_step (o, bar)).2 ∧
      ((l.foldl select_best_step (o, bar)).1 = none → o = none) ∧
      (∀ b, (l.foldl select_best_step (o, bar)).1 = some b →
        (o = some b ∨ b ∈ l) ∧ b.cls = 0 ∧
          b.conf = (l.foldl select_best_step (o, bar)).2) ∧
      (∀ b' ∈ l, b'.cls = 0 →
        b'.conf ≤ (l.foldl select_best_step (o, bar)).2) ∧
      ((l.foldl select_best_step (o, bar)).1 = none →
        ∀ b' ∈ l, b'.cls = 0 → b'.conf < threshold) := by
  induction l with
  | nil =>
    intro o bar h1 h2 h3
    refine ⟨le_refl _, fun h => h, ?_, by simp, by simp⟩
    intro b hb
    exact ⟨Or.inl hb, (h3 b hb).1, (h3 b hb).2⟩
  | cons x l ih =>
    intro o bar h1 h2 h3
    rw [List.foldl_cons]
    by_cases hc : bar ≤ x.conf ∧ x.cls = 0
    · have hstep : select_best_step (o, bar) x = (some x, x.conf) := by
        unfold select_best_step
        exact if_pos hc
      rw [hstep]
      have h1' : threshold ≤ x.conf := le_trans h1 hc.1
      have h3' : ∀ b, (some x : Option Box) = some b →
          b.cls = 0 ∧ b.conf = x.conf := by
        intro b hb
        cases hb
        exact ⟨hc.2, rfl⟩
      obtain ⟨g1, g2, g3, g4, g5⟩ := ih (some x) x.conf h1' (by simp) h3'
      refine ⟨le_trans hc.1 g1, ?_, ?_, ?_, ?_⟩
      · intro hn
        exact absurd (g2 hn) (by simp)
      · intro b hb
        obtain ⟨hmem, hcls, hconf⟩ := g3 b hb
        refine ⟨?_, hcls, hconf⟩
        rcases hmem with h | h
        · cases h
          exact Or.inr (List.mem_cons_self x l)
        · exact Or.inr (List.mem_cons_of_mem x h)
      · intro b' hb' hcls
        rcases List.mem_cons.mp hb' with h | h
        · cases h
          exact le_trans (le_refl _) g1
        · exact g4 b' h hcls
      · intro hn
        exact absurd (g2 hn) (by simp)
    · have hstep : select_best_step (o, bar) x = (o, bar) := by
        unfold select_best_step
        exact if_neg hc
      rw [hstep]
      obtain ⟨g1, g2, g3, g4, g5⟩ := ih o bar h1 h2 h3
      refine ⟨g1, g2, ?_, ?_, ?_⟩
      · intro b hb
        obtain ⟨hmem, hcls, hconf⟩ := g3 b hb
        refine ⟨?_, hcls, hconf⟩
        rcases hmem with h | h
        · exact Or.inl h
        · exact Or.inr (List.mem_cons_of_mem x h)
      · intro b' hb' hcls
        rcases List.mem_cons.mp hb' with h | h
        · subst h
          have : b'.conf < bar := by
            by_contra hge
            exact hc ⟨le_of_not_lt hge, hcls⟩
          exact le_trans (le_of_lt this) g1
        · exact g4 b' h hcls
      · intro hn b' hb' hcls
        rcases List.mem_cons.mp hb' with h | h
        · subst h
          have hbar : bar = threshold := h2 (g2 hn)
          have : b'.conf < bar := by
            by_contra hge
            exact hc ⟨le_of_not_lt hge, hcls⟩
          rw [hbar] at this
          exact this
        · exact g5 hn b' h hcls

theorem zone_top_left (w h : ℚ) (hw : 0 < w) (hh : 0 < h) :
    zone_commands w h (w / 6) (h / 6) =
      [.panLeft, .stopAction, .tiltUp, .stopAction] := by
  unfold zone_commands
  rw [if_pos (by linarith), if_pos (by linarith)]

theorem zone_center (w h : ℚ) (hw : 0 < w) (hh : 0 < h) :
    zone_commands w h (w / 2) (h / 2) = [] := by
  unfold zone_commands
  rw [if_neg (by linarith), if_neg (by linarith),
    if_neg (by linarith), if_neg (by linarith)]

/-- C6: the automatic PTZ policy selects a highest-scoring box with
score at or above the confidence threshold and the tracked class
(class 0), classifies its center against the 3×3 grid with boundaries
at `w/3`, `2w/3`, `h/3`, `2h/3`; a box centered at `(w/6, h/6)` falls
in the top-left corner zone and yields pan-left, stop, tilt-up, stop;
a box centered at `(w/2, h/2)` falls in the center zone and yields no
motion. -/
theorem c6_ptz_zone_policy (w h : ℚ) (boxes : List Box)
    (threshold : ℚ) (b : Box) (hw : 0 < w) (hh : 0 < h) :
    (select_best_box boxes threshold = some b →
      b ∈ boxes ∧ b.cls = 0 ∧ threshold ≤ b.conf ∧
      ∀ b' ∈ boxes, b'.cls = 0 → b'.conf ≤ b.conf) ∧
    zone_commands w h (w / 6) (h / 6) =
      [.panLeft, .stopAction, .tiltUp, .stopAction] ∧
    zone_commands w h (w / 2) (h / 2) = [] ∧
    control_ptz_by_object_position w h
      [⟨threshold, 0, 0, 0, w / 3, h / 3⟩] threshold =
      [.panLeft, .stopAction, .tiltUp, .stopAction] ∧
    control_ptz_by_object_position w h
      [⟨threshold, 0, 0, 0, w, h⟩] threshold = [] := by
  obtain ⟨g1, g2, g3, g4, g5⟩ :=
    select_fold_spec threshold boxes none threshold (le_refl _)
      (fun _ => rfl) (by simp)
  refine ⟨?_, zone_top_left w h hw hh, zone_center w h hw hh, ?_, ?_⟩
  · intro hb
    obtain ⟨hmem, hcls, hconf⟩ := g3 b hb
    refine ⟨?_, hcls, ?_, ?_⟩
    · rcases hmem with hcontra | hm
      · cases hcontra
      · exact hm
    · rw [hconf]
      exact g1
    · intro b' hb' hcls'
      rw [hconf]
      exact g4 b' hb' hcls'
  · have hsel : select_best_box [⟨threshold, 0, 0, 0, w / 3, h / 3⟩]
        threshold = some ⟨threshold, 0, 0, 0, w / 3, h / 3⟩ := by
      unfold select_best_box select_best_step
      simp
    unfold control_ptz_by_object_position
    rw [hsel]
    have hcx : ((0 : ℚ) + w / 3) / 2 = w / 6 := by ring
    have hcy : ((0 : ℚ) + h / 3) / 2 = h / 6 := by ring
    simp only [hcx, hcy]
    exact zone_top_left w h hw hh
  · have hsel : select_best_box [⟨threshold, 0, 0, 0, w, h⟩]
        threshold = some ⟨threshold, 0, 0, 0, w, h⟩ := by
      unfold select_best_box select_best_step
      simp
    unfold control_ptz_by_object_position
    rw [hsel]
    have hcx : ((0 : ℚ) + w) / 2 = w / 2 := by ring
    have hcy : ((0 : ℚ) + h) / 2 = h / 2 := by ring
    simp only [hcx, hcy]
    exact zone_center w h hw hh

/-- C6 witness: on a 600×300 frame, a single tracked box filling the
top-left ninth produces the pan-left/stop/tilt-up/stop compound, and
one centered on the frame produces no motion. -/
theorem c6_ptz_zone_policy_witness :
    control_ptz_by_object_position 600 300
      [⟨65 / 100, 0, 0, 0, 600 / 3, 300 / 3⟩] (65 / 100) =
      [.panLeft, .stopAction, .tiltUp, .stopAction] ∧
    control_ptz_by_object_position 600 300
      [⟨65 / 100, 0, 0, 0, 600, 300⟩] (65 / 100) = [] := by
  have h := c6_ptz_zone_policy 600 300 []
    (65 / 100) ⟨65 / 100, 0, 0, 0, 600 / 3, 300 / 3⟩
    (by norm_num) (by norm_num)
  exact ⟨h.2.2.2.1, h.2.2.2.2⟩

/-! ## Hysteresis state machine lemmas -/

theorem run_frames_cons (s : SysState) (n : Nat) (t : ℚ)
    (l : List (Nat × ℚ)) :
    run_frames s ((n, t) :: l) = run_frames (infer_frame_step s n t).1 l :=
  rfl

theorem run_frames_append (l₁ l₂ : List (Nat × ℚ)) : ∀ s : SysState,
    run_frames s (l₁ ++ l₂) = run_frames (run_frames s l₁) l₂ := by
  induction l₁ with
  | nil => intro s; rfl
  | cons x l ih =>
    intro s
    obtain ⟨n, t⟩ := x
    rw [List.cons_append, run_frames_cons, run_frames_cons, ih]

theorem infer_step_automatic (s : SysState) (n : Nat) (t : ℚ) :
    (infer_frame_step s n t).1.automatic_mode = s.automatic_mode := by
  unfold infer_frame_step
  split_ifs <;> simp_all

theorem run_frames_automatic (l : List (Nat × ℚ)) : ∀ s : SysState,
    (run_frames s l).automatic_mode = s.automatic_mode := by
  induction l with
  | nil => intro s; rfl
  | cons x l ih =>
    intro s
    obtain ⟨n, t⟩ := x
    rw [run_frames_cons, ih, infer_step_automatic]

theorem infer_step_hcf_pos (s : SysState) (n : Nat) (t : ℚ)
    (hauto : s.automatic_mode = true) (hn : 0 < n) :
    (infer_frame_step s n t).1.high_confidence_frames =
      s.high_confidence_frames + 1 := by
  unfold infer_frame_step
  split_ifs <;> simp_all

theorem infer_step_hcf_notpos (s : SysState) (n : Nat) (t : ℚ)
    (hauto : s.automatic_mode = true) (hn : ¬ 0 < n) :
    (infer_frame_step s n t).1.high_confidence_frames = 0 := by
  unfold infer_frame_step
  split_ifs <;> simp_all

theorem infer_step_entry (s : SysState) (n : Nat) (t : ℚ)
    (h0 : s.recording = false)
    (h1 : (infer_frame_step s n t).1.recording = true) :
    0 < n ∧
    required_consecutive_frames ≤ s.high_confidence_frames + 1 := by
  unfold infer_frame_step at h1
  split_ifs at h1 <;> simp_all

theorem trailing_of_all (l : List (Nat × ℚ))
    (h : all_qualifying l = true) :
    trailing_qualifying l = l.length := by
  induction l with
  | nil => rfl
  | cons x l ih =>
    obtain ⟨n, t⟩ := x
    unfold all_qualifying at h
    by_cases hn : 0 < n
    · rw [if_pos hn] at h
      unfold trailing_qualifying
      rw [if_pos ⟨hn, h⟩, List.length_cons]
    · rw [if_neg hn] at h
      cases h

theorem all_qualifying_cons (n : Nat) (t : ℚ) (l : List (Nat × ℚ)) :
    all_qualifying ((n, t) :: l) =
      if 0 < n then all_qualifying l else false :=
  rfl

theorem trailing_cons (n : Nat) (t : ℚ) (l : List (Nat × ℚ)) :
    trailing_qualifying ((n, t) :: l) =
      if 0 < n ∧ all_qualifying l = true then l.length + 1
      else trailing_qualifying l :=
  rfl

theorem run_frames_hcf (l : List (Nat × ℚ)) : ∀ s : SysState,
    s.automatic_mode = true →
    (run_frames s l).high_confidence_frames =
      if all_qualifying l = true then
        s.high_confidence_frames + l.length
      else trailing_qualifying l := by
  induction l with
  | nil =>
    intro s hauto
    simp [run_frames, all_qualifying]
  | cons x l ih =>
    intro s hauto
    obtain ⟨n, t⟩ := x
    rw [run_frames_cons,
      ih _ (by rw [infer_step_automatic, hauto]),
      all_qualifying_cons, trailing_cons]
    by_cases hn : 0 < n
    · rw [infer_step_hcf_pos s n t hauto hn, if_pos hn]
      by_cases hall : all_qualifying l = true
      · rw [if_pos hall, if_pos hall, List.length_cons]
        omega
      · rw [if_neg hall, if_neg hall,
          if_neg (fun hc : 0 < n ∧ all_qualifying l = true =>
            hall hc.2)]
    · rw [infer_step_hcf_notpos s n t hauto hn, if_neg hn,
        if_neg (show ¬ (false = true) by simp),
        if_neg (fun hc : 0 < n ∧ all_qualifying l = true => hn hc.1)]
      split_ifs with hall
      · rw [trailing_of_all l hall, Nat.zero_add]
      · rfl

theorem run_frames_hcf_zero (l : List (Nat × ℚ)) (s : SysState)
    (hauto : s.automatic_mode = true)
    (hhcf : s.high_confidence_frames = 0) :
    (run_frames s l).high_confidence_frames = trailing_qualifying l := by
  rw [run_frames_hcf l s hauto]
  split_ifs with hall
  · rw [trailing_of_all l hall, hhcf, Nat.zero_add]
  · rfl

/-- C3: starting from an idle automatic state with the consecutive
counter at zero, the recording flag can flip from false to true at a
frame only if that frame is qualifying and the trailing run of
consecutive qualifying frames (including it) has reached
`required_consecutive_frames = 3`; a qualifying frame increments the
counter, a non-qualifying frame resets it to zero; and on the concrete
trace of 2 qualifying, 1 non-qualifying, then 3 qualifying frames,
recording starts exactly on the last frame. -/
theorem c3_hysteresis (s : SysState) (p : List (Nat × ℚ))
    (e : Nat × ℚ) (n : Nat) (t : ℚ)
    (hauto : s.automatic_mode = true)
    (hhcf : s.high_confidence_frames = 0)
    (hbefore : (run_frames s p).recording = false)
    (hafter : (run_frames s (p ++ [e])).recording = true) :
    required_consecutive_frames ≤ trailing_qualifying (p ++ [e]) ∧
    0 < e.1 ∧
    (0 < n → (infer_frame_step s n t).1.high_confidence_frames =
      s.high_confidence_frames + 1) ∧
    (infer_frame_step s 0 t).1.high_confidence_frames = 0 ∧
    (run_frames ⟨true, none, none, false, none, 0, 0, false, []⟩
      [(1, 0), (1, 1), (0, 2), (1, 3), (1, 4)]).recording = false ∧
    (run_frames ⟨true, none, none, false, none, 0, 0, false, []⟩
      [(1, 0), (1, 1), (0, 2), (1, 3), (1, 4), (1, 5)]).recording =
      true := by
  obtain ⟨en, et⟩ := e
  have hafter' : (infer_frame_step (run_frames s p) en et).1.recording =
      true := by
    rw [run_frames_append p [(en, et)] s, run_frames_cons] at hafter
    exact hafter
  have hauto_p : (run_frames s p).automatic_mode = true := by
    rw [run_frames_automatic, hauto]
  obtain ⟨hen, hreq⟩ :=
    infer_step_entry (run_frames s p) en et hbefore hafter'
  have hinc := infer_step_hcf_pos (run_frames s p) en et hauto_p hen
  have hccat : (run_frames s (p ++ [(en, et)])).high_confidence_frames =
      (run_frames s p).high_confidence_frames + 1 := by
    rw [run_frames_append p [(en, et)] s, run_frames_cons]
    exact hinc
  have htrail := run_frames_hcf_zero (p ++ [(en, et)]) s hauto hhcf
  refine ⟨?_, hen, ?_, ?_, by decide, by decide⟩
  · rw [← htrail, hccat]
    exact hreq
  · intro hn
    exact infer_step_hcf_pos s n t hauto hn
  · exact infer_step_hcf_notpos s 0 t hauto (by omega)

/-- C3 witness: on the trace of 2 qualifying, 1 non-qualifying, then 3
qualifying frames, the frame at which recording starts closes a
trailing run of at least 3 consecutive qualifying frames. -/
theorem c3_hysteresis_witness :
    required_consecutive_frames ≤
      trailing_qualifying
        ([(1, 0), (1, 1), (0, 2), (1, 3), (1, 4)] ++ [(1, 5)]) := by
  have h := c3_hysteresis
    ⟨true, none, none, false, none, 0, 0, false, []⟩
    [(1, 0), (1, 1), (0, 2), (1, 3), (1, 4)] (1, 5) 1 0
    rfl rfl (by decide) (by decide)
  exact h.1

/-! ## Recording finalization lemmas -/

theorem newer_fold_spec (l : List DirFile) : ∀ g : DirFile,
    ∃ m, l.foldl newer_file (some g) = some m ∧
      (m = g ∨ m ∈ l) ∧ g.ctime ≤ m.ctime ∧
      ∀ x ∈ l, x.ctime ≤ m.ctime := by
  induction l with
  | nil =>
    intro g
    exact ⟨g, rfl, Or.inl rfl, le_refl _, by simp⟩
  | cons f l ih =>
    intro g
    rw [List.foldl_cons]
    by_cases hc : g.ctime < f.ctime
    · have hstep : newer_file (some g) f = some f := by
        show (if g.ctime < f.ctime then some f else some g) = some f
        rw [if_pos hc]
      rw [hstep]
      obtain ⟨m, hm, hmem, hle, hall⟩ := ih f
      refine ⟨m, hm, ?_, le_trans (le_of_lt hc) hle, ?_⟩
      · rcases hmem with h | h
        · exact Or.inr (h ▸ List.mem_cons_self f l)
        · exact Or.inr (List.mem_cons_of_mem f h)
      · intro x hx
        rcases List.mem_cons.mp hx with h | h
        · exact h ▸ hle
        · exact hall x h
    · have hstep : newer_file (some g) f = some g := by
        show (if g.ctime < f.ctime then some f else some g) = some g
        rw [if_neg hc]
      rw [hstep]
      obtain ⟨m, hm, hmem, hle, hall⟩ := ih g
      refine ⟨m, hm, ?_, hle, ?_⟩
      · rcases hmem with h | h
        · exact Or.inl h
        · exact Or.inr (List.mem_cons_of_mem f h)
      · intro x hx
        rcases List.mem_cons.mp hx with h | h
        · exact h ▸ le_trans (le_of_not_lt hc) hle
        · exact hall x h

theorem newest_some_of_mem (dir : List DirFile) (x : DirFile)
    (hx : x ∈ dir) (hq : startswith x.name "detection_" = true) :
    ∃ m, newest_detection_file dir = some m ∧ m ∈ dir ∧
      startswith m.name "detection_" = true ∧
      ∀ g ∈ dir, startswith g.name "detection_" = true →
        g.ctime ≤ m.ctime := by
  have hxf : x ∈ dir.filter (fun f => startswith f.name "detection_") :=
    List.mem_filter.mpr ⟨hx, hq⟩
  unfold newest_detection_file
  cases hfl : dir.filter (fun f => startswith f.name "detection_") with
  | nil =>
    rw [hfl] at hxf
    cases hxf
  | cons f0 rest =>
    rw [List.foldl_cons]
    have hstep : newer_file none f0 = some f0 := rfl
    rw [hstep]
    obtain ⟨m, hm, hmem, hle0, hall⟩ := newer_fold_spec rest f0
    have hmf : m ∈ dir.filter (fun f => startswith f.name "detection_") := by
      rw [hfl]
      rcases hmem with h | h
      · exact h ▸ List.mem_cons_self f0 rest
      · exact List.mem_cons_of_mem f0 h
    obtain ⟨hmd, hmq⟩ := List.mem_filter.mp hmf
    refine ⟨m, hm, hmd, hmq, ?_⟩
    intro g hg hgq
    have hgf : g ∈ dir.filter (fun f => startswith f.name "detection_") :=
      List.mem_filter.mpr ⟨hg, hgq⟩
    rw [hfl] at hgf
    rcases List.mem_cons.mp hgf with h | h
    · exact h ▸ hle0
    · exact hall g h

/-- C9: when `stop_recording` runs with an open writer, the path it
enqueues for upload is the name of the newest (greatest creation time)
`detection_` file in the recordings directory, not a path remembered
from the session that opened the writer: whenever the directory holds a
`detection_` file strictly newer than the one the closed writer wrote,
the enqueued name is that of a maximal-ctime `detection_` file and
differs from the writer's file's name. -/
theorem c9_newest_file_enqueued (s : SysState) (dir : List DirFile)
    (fb : String) (wf nf : DirFile)
    (hw : s.video_writer_open = true)
    (hwf : wf ∈ dir) (hnf : nf ∈ dir)
    (hwfq : startswith wf.name "detection_" = true)
    (hnfq : startswith nf.name "detection_" = true)
    (hlt : wf.ctime < nf.ctime)
    (hnames : (dir.map DirFile.name).Nodup) :
    ∃ m : DirFile, newest_detection_file dir = some m ∧
      m ∈ dir ∧ startswith m.name "detection_" = true ∧
      (∀ g ∈ dir, startswith g.name "detection_" = true →
        g.ctime ≤ m.ctime) ∧
      wf.ctime < m.ctime ∧ m.name ≠ wf.name ∧
      (stop_recording s dir fb).upload_queue =
        s.upload_queue ++ [m.name] := by
  obtain ⟨m, hm, hmd, hmq, hmax⟩ := newest_some_of_mem dir nf hnf hnfq
  have h2 : wf.ctime < m.ctime := lt_of_lt_of_le hlt (hmax nf hnf hnfq)
  have h4 : m.name ≠ wf.name := by
    intro he
    have hmw : m = wf :=
      List.inj_on_of_nodup_map hnames hmd hwf he
    rw [hmw] at h2
    exact lt_irrefl _ h2
  refine ⟨m, hm, hmd, hmq, hmax, h2, h4, ?_⟩
  unfold stop_recording
  rw [hw, if_pos rfl, hm]

/-- C9 witness: with the writer's file created at time 10 and a newer
`detection_` file at time 20, the enqueued path is the newer file's. -/
theorem c9_newest_file_enqueued_witness :
    (stop_recording ⟨true, none, none, true, some 0, 0, 3, true, []⟩
      [⟨"detection_a.mp4", 10⟩, ⟨"detection_b.mp4", 20⟩]
      "fb").upload_queue = ["detection_b.mp4"] := by
  obtain ⟨m, hm, -, -, -, -, -, hq⟩ := c9_newest_file_enqueued
    ⟨true, none, none, true, some 0, 0, 3, true, []⟩
    [⟨"detection_a.mp4", 10⟩, ⟨"detection_b.mp4", 20⟩] "fb"
    ⟨"detection_a.mp4", 10⟩ ⟨"detection_b.mp4", 20⟩
    rfl (by decide) (by decide) (by decide) (by decide) (by decide)
    (by decide)
  have hmv : newest_detection_file
      [⟨"detection_a.mp4", 10⟩, ⟨"detection_b.mp4", 20⟩] =
      some ⟨"detection_b.mp4", 20⟩ := by decide
  rw [hq]
  rw [hmv] at hm
  cases hm
  rfl

end PiStream
